import Mathlib

/-!
Verification of the `fileorganizer` duplicate-file scanner.

The development shallowly embeds the program (`src/main.rs`, plus the
orphan module `src/file_tree/mod.rs`) in Lean:

* paths are UTF-8 strings; Rust's `Path::file_name` / `Path::file_stem`
  are modelled at the character-list level (`rustFileName`, `rustFileStem`);
* the filesystem is an abstract record of read-only probes (`FS`); a
  directory listing yields `Option DirEntry` results, where an inner
  `none` is an errored `read_dir` iterator item (dropped by the source's
  `filter_map(ok)`); `DirEntry.utf8 = false` marks an entry whose final
  name component is not valid UTF-8;
* `walk_dir` is fuel-indexed; its outcomes distinguish a normal tree
  (`ok`), a propagated `io::Result` error (`err`), a Rust panic from one
  of the source's `unwrap()` / `unreachable!()` sites (`panic`), and fuel
  exhaustion (`fuelOut`), which witnesses unbounded recursion;
* `HashMap<String, Vec<File>>` is modelled as an insertion-ordered
  association list (bucket iteration order of the real hash map is
  unspecified; no theorem below depends on bucket order);
* the content digester (`sha256::try_digest`, an external crate) is an
  abstract function `hash` over file contents, with `tryDigest` failing
  exactly when the file content cannot be read;
* `organize`'s printed duplicate groups are modelled as a returned list
  of `ReportGroup`s, and the i32 it computes is `organizeExitCode`;
  `mainExit` models the process exit status of `main`, which ignores
  `organize`'s return value.
-/

namespace FileOrganizer

/-! ## Rust path semantics -/

/-- Split a character list at `'/'` separators, keeping empty segments
(the way Rust's component parser sees raw segments before filtering). -/
def splitSegs : List Char → List (List Char)
  | [] => [[]]
  | c :: rest =>
    if c = '/' then [] :: splitSegs rest
    else
      match splitSegs rest with
      | [] => [[c]]
      | s :: ss => (c :: s) :: ss

/-- The normalized components of a path: raw segments with empty
segments and lone `"."` segments removed, as Rust's `Components` does
for all but a leading `CurDir` (which can never be a final component of
a path that has a file name). -/
def pathComps (l : List Char) : List (List Char) :=
  (splitSegs l).filter (fun seg => decide (seg ≠ [] ∧ seg ≠ ['.']))

/-- Model of Rust `Path::file_name`: the last normalized component,
unless it is `..` (or there is none), in which case `none`. -/
def rustFileName (s : String) : Option String :=
  match (pathComps s.data).getLast? with
  | none => none
  | some seg => if seg = ['.', '.'] then none else some (String.mk seg)

/-- Strip the extension from a bare file name the way Rust
`Path::file_stem` does: drop the suffix starting at the last `'.'`,
unless that `'.'` is the first character or absent. -/
def stemChars (l : List Char) : List Char :=
  match l.reverse.dropWhile (fun c => c ≠ '.') with
  | [] => l
  | _ :: rest => if rest = [] then l else rest.reverse

/-- Model of Rust `Path::file_stem`: the file name with its final
extension removed. -/
def rustFileStem (s : String) : Option String :=
  (rustFileName s).map (fun n => String.mk (stemChars n.data))

/-! ## Data model (`File`, `FileTree`, `FileIndex`) -/

/-- `pub struct File` of `main.rs`; the `fs::Metadata` snapshot is
never inspected by the program logic and is omitted. -/
structure File where
  name : String
deriving DecidableEq

/-- `pub enum FileTree` of `main.rs`, with `Directory` inlined into the
`DirNode` constructor.  `FileNode` and `LinkNode` carry the full path
string (`path.to_str().unwrap()`), `LinkNode` additionally the raw link
target read by `fs::read_link`. -/
inductive FileTree where
  | DirNode (name : String) (entries : List FileTree)
  | FileNode (name : String)
  | LinkNode (name : String) (target : String)

/-- `struct FileIndex` of `main.rs`: the two `HashMap<String, Vec<File>>`
maps, modelled as insertion-ordered association lists. -/
structure FileIndex where
  byHash : List (String × List File)
  byName : List (String × List File)
deriving DecidableEq

def FileIndex.new : FileIndex := ⟨[], []⟩

/-- `self.map.entry(key).or_insert(Vec::new()); bucket.push(file)`:
append `f` to the bucket for `k`, creating the bucket if absent. -/
def storeBucket : List (String × List File) → String → File → List (String × List File)
  | [], k, f => [(k, [f])]
  | (k2, v) :: rest, k, f =>
    if k2 = k then (k2, v ++ [f]) :: rest else (k2, v) :: storeBucket rest k f

/-- `HashMap::get` on the association list. -/
def bucketGet : List (String × List File) → String → List File
  | [], _ => []
  | (k2, v) :: rest, k => if k2 = k then v else bucketGet rest k

/-- `FileIndex::store_hash` of `main.rs`. -/
def FileIndex.store_hash (idx : FileIndex) (hash : String) (f : File) : FileIndex :=
  { idx with byHash := storeBucket idx.byHash hash f }

/-- `FileIndex::store_name` of `main.rs`: keys the by-name map by
`path.file_name().unwrap()` — the final path segment WITH its extension;
the `unwrap` panic is modelled as `none`. -/
def FileIndex.store_name (idx : FileIndex) (nm : String) (f : File) : Option FileIndex :=
  match rustFileName nm with
  | none => none
  | some key => some { idx with byName := storeBucket idx.byName key f }

/-- `FileIndex::store_name` of the orphan module `src/file_tree/mod.rs`:
keys by `path.file_stem().unwrap()` — the final segment with its
extension removed.  This module is not declared by `main.rs` and is not
part of the compiled program. -/
def file_tree.store_name (idx : FileIndex) (nm : String) (f : File) : Option FileIndex :=
  match rustFileStem nm with
  | none => none
  | some key => some { idx with byName := storeBucket idx.byName key f }

/-! ## Abstract filesystem and the tree walker -/

/-- One successfully yielded `fs::DirEntry`: `raw` is the final name
component used to form the child path; `utf8 = false` marks a name that
is not valid UTF-8 (so `to_str()` on it fails). -/
structure DirEntry where
  raw : String
  utf8 : Bool

/-- Read-only filesystem probes used by the program.
`readDir p = none` models `fs::read_dir` failing; an inner `none` in the
listing models an errored iterator item.  `metadataOk` is whether
`fs::metadata` (which follows symlinks) succeeds.  `isDir`, `isFile`
follow symlinks as the Rust `Path` methods do; `isSymlink` does not.
`content p = none` models an unreadable file (digest failure). -/
structure FS where
  readDir : String → Option (List (Option DirEntry))
  metadataOk : String → Bool
  isDir : String → Bool
  isSymlink : String → Bool
  isFile : String → Bool
  readLink : String → Option String
  content : String → Option (List Nat)

/-- The name `walk_dir` computes for an entry:
`path.file_name().unwrap_or(OsStr::new(".")).to_str().unwrap_or(".")`. -/
def entryName (dir : String) (e : DirEntry) : String :=
  if e.utf8 then (rustFileName (dir ++ "/" ++ e.raw)).getD "." else "."

/-- Outcome of a fallible traversal step: `ok`, a propagated
`io::Result` error, a Rust panic, or fuel exhaustion (the recursion did
not terminate within the given depth budget). -/
inductive WRes (α : Type) where
  | ok (a : α)
  | err
  | panic
  | fuelOut

/-- The entry loop of `walk_dir`, parameterized by the recursive call
`rec` used for subdirectories.  Mirrors the source order: compute the
name, apply the filter (skip on `false`), `fs::metadata(..).unwrap()`
(panic on failure), then match `is_dir` / `is_symlink` / `is_file` in
that order, with `unreachable!()` as a final panic.  Node names are
`path.to_str().unwrap()`, which panics when the path is not valid
UTF-8 (`dirOk && e.utf8` tracks validity of the child path). -/
def walkEntriesCore (fs : FS) (filter : String → Bool)
    (rec : String → Bool → WRes FileTree) :
    String → Bool → List DirEntry → WRes (List FileTree)
  | _, _, [] => .ok []
  | dir, dirOk, e :: rest =>
    let path := dir ++ "/" ++ e.raw
    if filter (entryName dir e) = false then
      walkEntriesCore fs filter rec dir dirOk rest
    else if fs.metadataOk path = false then .panic
    else if fs.isDir path then
      match rec path (dirOk && e.utf8) with
      | .ok child =>
        match walkEntriesCore fs filter rec dir dirOk rest with
        | .ok siblings => .ok (child :: siblings)
        | r => r
      | .err => .err
      | .panic => .panic
      | .fuelOut => .fuelOut
    else if fs.isSymlink path then
      if (dirOk && e.utf8) = false then .panic
      else
        match fs.readLink path with
        | none => .panic
        | some tgt =>
          match walkEntriesCore fs filter rec dir dirOk rest with
          | .ok siblings => .ok (.LinkNode path tgt :: siblings)
          | r => r
    else if fs.isFile path then
      if (dirOk && e.utf8) = false then .panic
      else
        match walkEntriesCore fs filter rec dir dirOk rest with
        | .ok siblings => .ok (.FileNode path :: siblings)
        | r => r
    else .panic

/-- `fn walk_dir(dir, filter) -> io::Result<Directory>` of `main.rs`,
with a fuel bound on recursion depth.  `fs::read_dir(dir)?` propagates a
listing failure as `err`; errored iterator items are dropped by
`filter_map(|r| r.ok())`; the `Directory` name is
`dir.to_str().unwrap()` (panic when the path is not valid UTF-8). -/
def walk_dir (fs : FS) (filter : String → Bool) :
    Nat → String → Bool → WRes FileTree
  | 0, _, _ => .fuelOut
  | fuel + 1, dir, dirOk =>
    match fs.readDir dir with
    | none => .err
    | some results =>
      match walkEntriesCore fs filter (walk_dir fs filter fuel) dir dirOk
          (results.filterMap id) with
      | .ok children => if dirOk then .ok (.DirNode dir children) else .panic
      | .err => .err
      | .panic => .panic
      | .fuelOut => .fuelOut

/-- The entry loop at a given fuel level (the body of `walk_dir` after a
successful listing). -/
def walk_entries (fs : FS) (filter : String → Bool) (fuel : Nat) :
    String → Bool → List DirEntry → WRes (List FileTree) :=
  walkEntriesCore fs filter (walk_dir fs filter fuel)

/-- Rust `str::starts_with(".")`, modelled at the character level: the
string's first character is `'.'`. -/
def startsWithDot (s : String) : Bool :=
  match s.data with
  | '.' :: _ => true
  | _ => false

/-- `fn should_skip` of `main.rs`: despite its name it is the KEEP
filter — `true` keeps the entry, entries whose name starts with `.` are
dropped. -/
def should_skip (file_name : String) : Bool :=
  !(startsWithDot file_name)

/-! ## Index construction (`visit_files`, `create_hash_index`, `create_name_index`) -/

mutual

/-- `fn visit_files` of `main.rs`, returning the regular files in visit
order: directories recurse depth-first, symlinks are visited but
contribute nothing, file nodes are yielded. -/
def visitFiles : FileTree → List File
  | .DirNode _ es => visitList es
  | .FileNode n => [⟨n⟩]
  | .LinkNode _ _ => []

def visitList : List FileTree → List File
  | [] => []
  | t :: rest => visitFiles t ++ visitList rest

end

/-- `sha256::try_digest`: reads the file's bytes and hashes them; fails
exactly when the content cannot be read. -/
def tryDigest (fs : FS) (hash : List Nat → String) (p : String) : Option String :=
  (fs.content p).map hash

/-- The visitor of `create_hash_index` folded over the visited files:
`try_digest(..).unwrap()` (panic on failure, modelled as `none`), then
`store_hash`. -/
def hashFold (fs : FS) (hash : List Nat → String) :
    List File → FileIndex → Option FileIndex
  | [], idx => some idx
  | f :: rest, idx =>
    match tryDigest fs hash f.name with
    | none => none
    | some d => hashFold fs hash rest (idx.store_hash d f)

/-- `fn create_hash_index` of `main.rs`. -/
def create_hash_index (fs : FS) (hash : List Nat → String)
    (node : FileTree) (idx : FileIndex) : Option FileIndex :=
  hashFold fs hash (visitFiles node) idx

/-- The visitor of `create_name_index` folded over the visited files:
`store_name(file.name, file)`, whose `unwrap` panic propagates. -/
def nameFold : List File → FileIndex → Option FileIndex
  | [], idx => some idx
  | f :: rest, idx =>
    match idx.store_name f.name f with
    | none => none
    | some idx2 => nameFold rest idx2

/-- `fn create_name_index` of `main.rs`. -/
def create_name_index (node : FileTree) (idx : FileIndex) : Option FileIndex :=
  nameFold (visitFiles node) idx

/-! ## The reporter and `organize` / `main` -/

inductive RKind where
  | content
  | name
deriving DecidableEq

/-- One printed duplicate group (`"Multiple matches for .."` plus its
indented member lines). -/
structure ReportGroup where
  kind : RKind
  members : List File
deriving DecidableEq

/-- The groups `organize` prints from one map: every bucket with
`len() > 1`, in iteration order. -/
def groupsOf (k : RKind) (m : List (String × List File)) : List ReportGroup :=
  (m.filter (fun kv => decide (1 < kv.2.length))).map (fun kv => ⟨k, kv.2⟩)

/-- Result of `fn organize`: the printed report on success (exit value
0), `walkErr` when `walk_dir` failed (the error is printed and 1 is
returned), `panicked` when an `unwrap` aborted the process. -/
inductive OrgResult where
  | ok (report : List ReportGroup)
  | walkErr
  | panicked
  | fuelOut
deriving DecidableEq

/-- `fn organize` of `main.rs`: walk with `should_skip`, build the hash
index and print its collision groups, then build the name index on the
same `FileIndex` and print its collision groups. -/
def organize (fs : FS) (hash : List Nat → String) (fuel : Nat) (dir : String) :
    OrgResult :=
  match walk_dir fs should_skip fuel dir true with
  | .err => .walkErr
  | .panic => .panicked
  | .fuelOut => .fuelOut
  | .ok tree =>
    match create_hash_index fs hash tree FileIndex.new with
    | none => .panicked
    | some idx1 =>
      match create_name_index tree idx1 with
      | none => .panicked
      | some idx2 =>
        .ok (groupsOf .content idx1.byHash ++ groupsOf .name idx2.byName)

/-- The i32 `organize` returns: 0 on a completed scan, 1 when the walk
failed; no value when the process panicked or the walk did not finish. -/
def organizeExitCode : OrgResult → Option Int
  | .ok _ => some 0
  | .walkErr => some 1
  | .panicked => none
  | .fuelOut => none

/-- The process exit status of `fn main`: `main` calls `organize` and
DISCARDS its return value, so any non-panicking run exits 0. -/
def mainExit (fs : FS) (hash : List Nat → String) (fuel : Nat) (dir : String) :
    Option Nat :=
  match organize fs hash fuel dir with
  | .ok _ => some 0
  | .walkErr => some 0
  | .panicked => none
  | .fuelOut => none

/-! ## Concrete filesystem fixtures -/

/-- A filesystem on which every probe fails: no directory can be
listed.  Walking any root here is the `RootUnreadable` case. -/
def fsEmpty : FS :=
  ⟨fun _ => none, fun _ => true, fun _ => false, fun _ => false,
   fun _ => false, fun _ => none, fun _ => none⟩

/-- A trivial digest function for runs whose contents never get hashed. -/
def zeroHash : List Nat → String := fun _ => ""

/-- A filesystem whose root `/r` contains a single symlink `s` pointing
at `/r` itself (its own parent).  Resolution makes every chained path
`/r/s/s/...` behave as `/r`: its listing is again `[s]`, and
`Path::is_dir` (which follows links) is true for all of them. -/
def loopFS : FS :=
  ⟨fun _ => some [some ⟨"s", true⟩], fun _ => true, fun _ => true,
   fun p => p ≠ "/r", fun _ => false, fun _ => some "/r", fun _ => none⟩

/-- A filesystem whose root `/r` contains an empty real directory `d`
and a symlink `s` whose target is `/r/d`: `is_dir` is true for `/r/s`
because it follows the link, and listing `/r/s` lists the (empty)
target. -/
def linkDirFS : FS :=
  ⟨fun p => if p = "/r" then some [some ⟨"d", true⟩, some ⟨"s", true⟩]
            else if p = "/r/d" ∨ p = "/r/s" then some [] else none,
   fun _ => true, fun _ => true, fun p => p = "/r/s", fun _ => false,
   fun p => if p = "/r/s" then some "/r/d" else none, fun _ => none⟩

/-- Root `/r` holding `photo.jpg` and `photo.png` with different
contents (spec Scenario D). -/
def photoFS : FS :=
  ⟨fun p => if p = "/r" then
              some [some ⟨"photo.jpg", true⟩, some ⟨"photo.png", true⟩]
            else none,
   fun _ => true, fun _ => false, fun _ => false, fun _ => true,
   fun _ => none,
   fun p => if p = "/r/photo.jpg" then some [0]
            else if p = "/r/photo.png" then some [1] else none⟩

/-- A digest function separating the two contents of `photoFS`. -/
def photoHash : List Nat → String := fun c => if c = [0] then "d0" else "d1"

/-- Root `/r` holding `bad.txt` (unreadable content), then `g1.txt` and
`g2.txt` with identical readable contents. -/
def digestFS : FS :=
  ⟨fun p => if p = "/r" then
              some [some ⟨"bad.txt", true⟩, some ⟨"g1.txt", true⟩,
                    some ⟨"g2.txt", true⟩]
            else none,
   fun _ => true, fun _ => false, fun _ => false, fun _ => true,
   fun _ => none,
   fun p => if p = "/r/bad.txt" then none else some [5]⟩

/-- A digest function for `digestFS`. -/
def digestHash : List Nat → String := fun _ => "d5"

/-- Root `/r` whose listing yields one entry `gone.txt` that then
cannot be stat'ed (`fs::metadata` fails, e.g. the file vanished between
enumeration and stat). -/
def statFS : FS :=
  ⟨fun p => if p = "/r" then some [some ⟨"gone.txt", true⟩] else none,
   fun p => p = "/r", fun _ => false, fun _ => false, fun _ => true,
   fun _ => none, fun _ => none⟩

/-- Root `/r` holding `x.txt` and `y.txt` with identical contents. -/
def twinFS : FS :=
  ⟨fun p => if p = "/r" then
              some [some ⟨"x.txt", true⟩, some ⟨"y.txt", true⟩]
            else none,
   fun _ => true, fun _ => false, fun _ => false, fun _ => true,
   fun _ => none, fun _ => some [7]⟩

/-- A digest function for `twinFS`. -/
def twinHash : List Nat → String := fun c => if c = [7] then "d7" else "dx"

/-- A three-file tree: `/r/a.txt` and `/r/b/a.txt` share their content,
`/r/c.txt` differs (spec Scenario A plus a distinct file). -/
def treeW : FileTree :=
  .DirNode "/r"
    [.FileNode "/r/a.txt",
     .DirNode "/r/b" [.FileNode "/r/b/a.txt"],
     .FileNode "/r/c.txt"]

/-- Contents for `treeW`, attached to a filesystem record. -/
def treeWFS : FS :=
  ⟨fun _ => none, fun _ => true, fun _ => false, fun _ => false,
   fun _ => false, fun _ => none,
   fun p => if p = "/r/c.txt" then some [2] else some [1]⟩

/-- A digest function separating the two contents of `treeWFS`. -/
def treeWHash : List Nat → String := fun c => if c = [1] then "dA" else "dB"

/-! ## Helper lemmas: path parsing -/

theorem splitSegs_ne_nil (l : List Char) : splitSegs l ≠ [] := by
  induction l with
  | nil => simp [splitSegs]
  | cons c rest ih =>
    by_cases h : c = '/'
    · simp [splitSegs, h]
    · simp only [splitSegs, if_neg h]
      cases hs : splitSegs rest with
      | nil => simp
      | cons s ss => simp

theorem splitSegs_append (a b : List Char) :
    splitSegs (a ++ '/' :: b) = splitSegs a ++ splitSegs b := by
  induction a with
  | nil => simp [splitSegs]
  | cons c a2 ih =>
    by_cases h : c = '/'
    · simp [splitSegs, h, ih]
    · show splitSegs (c :: (a2 ++ '/' :: b)) = splitSegs (c :: a2) ++ splitSegs b
      simp only [splitSegs, if_neg h]
      rw [ih]
      cases hs : splitSegs a2 with
      | nil => exact absurd hs (splitSegs_ne_nil a2)
      | cons s ss => simp

theorem splitSegs_no_slash (l : List Char) (h : ∀ c ∈ l, c ≠ '/') :
    splitSegs l = [l] := by
  induction l with
  | nil => rfl
  | cons c rest ih =>
    have hc : c ≠ '/' := h c (by simp)
    have hr : splitSegs rest = [rest] := ih (fun x hx => h x (by simp [hx]))
    simp [splitSegs, hc, hr]

theorem string_data_append (a b : String) : (a ++ b).data = a.data ++ b.data := by
  cases a
  cases b
  rfl

theorem getLast?_append_single (xs : List (List Char)) (x : List Char) :
    (xs ++ [x]).getLast? = some x := by
  induction xs with
  | nil => rfl
  | cons y ys ih =>
    cases ys with
    | nil => rfl
    | cons z zs => simpa [List.getLast?_cons_cons] using ih

/-- For a normal final component (nonempty, slash-free, not `.` and not
`..`) the modelled `Path::file_name` of `dir/raw` is `raw`. -/
theorem rustFileName_append_normal (d r : String)
    (h1 : r.data ≠ []) (h2 : ∀ c ∈ r.data, c ≠ '/')
    (h3 : r.data ≠ ['.']) (h4 : r.data ≠ ['.', '.']) :
    rustFileName (d ++ "/" ++ r) = some r := by
  have hdata : (d ++ "/" ++ r).data = d.data ++ '/' :: r.data := by
    rw [string_data_append, string_data_append]
    rw [show (("/" : String)).data = ['/'] from rfl]
    simp
  have hp : pathComps (d ++ "/" ++ r).data
      = pathComps d.data ++ [r.data] := by
    rw [hdata]
    unfold pathComps
    rw [splitSegs_append, splitSegs_no_slash r.data h2, List.filter_append]
    simp [h1, h3]
  simp only [rustFileName, hp, getLast?_append_single, if_neg h4]

/-- A normal-named, valid-UTF-8 entry keeps its own name in `walk_dir`. -/
theorem entryName_normal (dir : String) (e : DirEntry) (hu : e.utf8 = true)
    (h1 : e.raw.data ≠ []) (h2 : ∀ c ∈ e.raw.data, c ≠ '/')
    (h3 : e.raw.data ≠ ['.']) (h4 : e.raw.data ≠ ['.', '.']) :
    entryName dir e = e.raw := by
  simp [entryName, hu, rustFileName_append_normal dir e.raw h1 h2 h3 h4]

/-! ## Helper lemmas: the walker -/

/-- An entry rejected by the filter contributes nothing: the loop moves
on to the remaining entries without recursing. -/
theorem walkEntriesCore_skip (fs : FS) (filt : String → Bool)
    (rec : String → Bool → WRes FileTree) (dir : String) (dirOk : Bool)
    (e : DirEntry) (rest : List DirEntry)
    (h : filt (entryName dir e) = false) :
    walkEntriesCore fs filt rec dir dirOk (e :: rest) =
      walkEntriesCore fs filt rec dir dirOk rest := by
  simp [walkEntriesCore, h]

/-- The entry loop reads the filesystem only through the stat probes and
the recursive call: replacing `readDir` and the recursion consistently
preserves its result. -/
theorem walkEntriesCore_congr (fs : FS)
    (gg : String → Option (List (Option DirEntry))) (filt : String → Bool)
    (rec1 rec2 : String → Bool → WRes FileTree)
    (hrec : ∀ p b, rec1 p b = rec2 p b) :
    ∀ (dir : String) (dirOk : Bool) (l : List DirEntry),
      walkEntriesCore fs filt rec1 dir dirOk l
        = walkEntriesCore { fs with readDir := gg } filt rec2 dir dirOk l := by
  intro dir dirOk l
  induction l with
  | nil => rfl
  | cons e rest ih =>
    show walkEntriesCore fs filt rec1 dir dirOk (e :: rest)
      = walkEntriesCore { fs with readDir := gg } filt rec2 dir dirOk (e :: rest)
    rw [walkEntriesCore, walkEntriesCore, hrec, ih]

/-- `walk_dir` depends on each listing only through its successfully
read entries: errored iterator items are dropped and enumeration
continues. -/
theorem walk_dir_filterMap_congr (fs : FS)
    (gg : String → Option (List (Option DirEntry)))
    (hg : ∀ p, Option.map (List.filterMap id) (fs.readDir p)
            = Option.map (List.filterMap id) (gg p)) (filt : String → Bool) :
    ∀ (fuel : Nat) (dir : String) (dirOk : Bool),
      walk_dir fs filt fuel dir dirOk
        = walk_dir { fs with readDir := gg } filt fuel dir dirOk := by
  intro fuel
  induction fuel with
  | zero => intro dir dirOk; rfl
  | succ n ih =>
    intro dir dirOk
    have h := hg dir
    simp only [walk_dir]
    cases h1 : fs.readDir dir with
    | none =>
      cases h2 : gg dir with
      | none => rfl
      | some l2 => rw [h1, h2] at h; simp at h
    | some l1 =>
      cases h2 : gg dir with
      | none => rw [h1, h2] at h; simp at h
      | some l2 =>
        rw [h1, h2] at h
        have h3 : l1.filterMap id = l2.filterMap id := by simpa using h
        have hcore := walkEntriesCore_congr fs gg filt (walk_dir fs filt n)
          (walk_dir { fs with readDir := gg } filt n) (fun p b => ih p b)
          dir dirOk (l2.filterMap id)
        simp only [h3, hcore]

/-! ## Helper lemmas: index buckets -/

theorem bucketGet_storeBucket (m : List (String × List File)) (k : String)
    (f : File) (k2 : String) :
    bucketGet (storeBucket m k f) k2 =
      if k2 = k then bucketGet m k2 ++ [f] else bucketGet m k2 := by
  induction m with
  | nil =>
    by_cases h : k2 = k
    · subst h; simp [storeBucket, bucketGet]
    · have h2 : ¬ (k = k2) := fun hh => h hh.symm
      simp [storeBucket, bucketGet, h, h2]
  | cons kv m2 ih =>
    obtain ⟨a, v⟩ := kv
    by_cases hak : a = k
    · subst hak
      by_cases h : k2 = a
      · subst h; simp [storeBucket, bucketGet]
      · have h2 : ¬ (a = k2) := fun hh => h hh.symm
        simp [storeBucket, bucketGet, h, h2]
    · by_cases h : a = k2
      · subst h
        have h2 : ¬ (a = k) := hak
        have h3 : ¬ (k = a) := fun hh => hak hh.symm
        simp [storeBucket, bucketGet, h2, h3]
      · simp [storeBucket, bucketGet, hak, h, ih]

/-- After folding the digest visitor over `files`, the bucket at key `k`
is the initial bucket extended, in order, with exactly the files whose
digest is `k`. -/
theorem hashFold_some_bucket (fs : FS) (hash : List Nat → String) :
    ∀ (files : List File) (idx idx2 : FileIndex),
      hashFold fs hash files idx = some idx2 → ∀ k : String,
      bucketGet idx2.byHash k =
        bucketGet idx.byHash k ++
          files.filter (fun f => decide (tryDigest fs hash f.name = some k)) := by
  intro files
  induction files with
  | nil =>
    intro idx idx2 h k
    simp only [hashFold, Option.some.injEq] at h
    subst h
    simp
  | cons f rest ih =>
    intro idx idx2 h k
    simp only [hashFold] at h
    cases hd : tryDigest fs hash f.name with
    | none => rw [hd] at h; cases h
    | some d =>
      rw [hd] at h
      have hb := ih (idx.store_hash d f) idx2 h k
      rw [hb]
      simp only [FileIndex.store_hash, bucketGet_storeBucket]
      by_cases hk : k = d
      · subst hk
        simp [hd, List.filter_cons]
      · have hne : ¬ (tryDigest fs hash f.name = some k) := by
          rw [hd]; intro hh; exact hk (Option.some.inj hh).symm
        have hk2 : ¬ (d = k) := fun hh => hk hh.symm
        simp [hd, List.filter_cons, hk, hk2, hne]

/-- The digest visitor never touches the by-name map. -/
theorem hashFold_byName (fs : FS) (hash : List Nat → String) :
    ∀ (files : List File) (idx idx2 : FileIndex),
      hashFold fs hash files idx = some idx2 → idx2.byName = idx.byName := by
  intro files
  induction files with
  | nil =>
    intro idx idx2 h
    simp only [hashFold, Option.some.injEq] at h
    subst h
    rfl
  | cons f rest ih =>
    intro idx idx2 h
    simp only [hashFold] at h
    cases hd : tryDigest fs hash f.name with
    | none => rw [hd] at h; cases h
    | some d =>
      rw [hd] at h
      exact ih (idx.store_hash d f) idx2 h

/-- The digest fold aborts (the `unwrap` panics) exactly when some
visited file's content cannot be read. -/
theorem hashFold_none_iff (fs : FS) (hash : List Nat → String) :
    ∀ (files : List File) (idx : FileIndex),
      hashFold fs hash files idx = none ↔
        ∃ f ∈ files, fs.content f.name = none := by
  intro files
  induction files with
  | nil => intro idx; simp [hashFold]
  | cons f rest ih =>
    intro idx
    simp only [hashFold]
    cases hd : fs.content f.name with
    | none => simp [tryDigest, hd]
    | some c => simp [tryDigest, hd, ih]

/-! ## Helper lemmas: the reporter -/

theorem groupsOf_kind (k : RKind) (m : List (String × List File)) :
    ∀ g ∈ groupsOf k m, g.kind = k := by
  intro g hg
  simp only [groupsOf, List.mem_map] at hg
  obtain ⟨kv, _, rfl⟩ := hg
  rfl

theorem groupsOf_len (k : RKind) (m : List (String × List File)) :
    ∀ g ∈ groupsOf k m, 2 ≤ g.members.length := by
  intro g hg
  simp only [groupsOf, List.mem_map, List.mem_filter] at hg
  obtain ⟨kv, ⟨_, hlen⟩, rfl⟩ := hg
  simpa using Nat.succ_le_of_lt (of_decide_eq_true hlen)

theorem groupsOf_complete (k : RKind) (m : List (String × List File))
    (kv : String × List File) (hm : kv ∈ m) (hlen : 2 ≤ kv.2.length) :
    (⟨k, kv.2⟩ : ReportGroup) ∈ groupsOf k m := by
  simp only [groupsOf, List.mem_map]
  refine ⟨kv, ?_, rfl⟩
  simp only [List.mem_filter]
  exact ⟨hm, by simpa using Nat.lt_of_lt_of_le Nat.one_lt_two hlen⟩

/-! ## Claim C1 -/

/-- C1: REFUTED on the code (code bug).  The claim says symlinks are
recorded as leaf nodes, never traversed into as directories, and that a
symlink pointing at its own parent cannot cause infinite recursion of
`walk_dir`.  But `walk_dir` matches `path.is_dir()` — which FOLLOWS
symlinks — before `path.is_symlink()`, so a symlink whose target is a
directory is traversed as a directory.  On `loopFS`, whose root `/r`
contains only a symlink `s` to `/r` itself, the walk recurses without
bound (it exhausts every fuel budget); on `linkDirFS` the symlink
`/r/s` to the directory `/r/d` appears in the tree as a `DirNode`, not
as a `LinkNode`. -/
theorem C1_symlink_to_dir_is_traversed :
    (∀ fuel : Nat, walk_dir loopFS should_skip fuel "/r" true = .fuelOut)
    ∧ walk_dir linkDirFS should_skip 3 "/r" true
        = .ok (.DirNode "/r" [.DirNode "/r/d" [], .DirNode "/r/s" []]) := by
  constructor
  · have main : ∀ (fuel : Nat) (dir : String),
        walk_dir loopFS should_skip fuel dir true = .fuelOut := by
      intro fuel
      induction fuel with
      | zero => intro dir; rfl
      | succ n ih =>
        intro dir
        have hn : entryName dir ⟨"s", true⟩ = "s" :=
          entryName_normal dir ⟨"s", true⟩ rfl (by decide) (by decide)
            (by decide) (by decide)
        have hsk : should_skip "s" = true := rfl
        have hp1 : loopFS.readDir = fun _ => some [some ⟨"s", true⟩] := rfl
        have hp2 : loopFS.metadataOk = fun _ => true := rfl
        have hp3 : loopFS.isDir = fun _ => true := rfl
        simp [walk_dir, walkEntriesCore, hp1, hp2, hp3, hn, hsk, ih]
    exact fun fuel => main fuel "/r"
  · rfl

/-! ## Claim C2 -/

/-- C2 counterexample: with `photo.jpg` and `photo.png` (different
contents) in the root, the claim predicts one name-duplicate group of
size 2 under the key `photo`.  The program instead keys the by-name
index by `path.file_name()` — the final segment WITH its extension —
so the two files land in different singleton buckets, the bucket at
key `photo` is empty, and the run reports no group at all. -/
theorem C2_photo_counterexample :
    organize photoFS photoHash 2 "/r" = .ok []
    ∧ create_name_index
        (.DirNode "/r" [.FileNode "/r/photo.jpg", .FileNode "/r/photo.png"])
        FileIndex.new
      = some ⟨[], [("photo.jpg", [⟨"/r/photo.jpg"⟩]),
                   ("photo.png", [⟨"/r/photo.png"⟩])]⟩
    ∧ bucketGet [("photo.jpg", [File.mk "/r/photo.jpg"]),
                 ("photo.png", [File.mk "/r/photo.png"])] "photo" = [] :=
  ⟨rfl, rfl, rfl⟩

/-- C2 (amended): for every file inserted by the program's
`FileIndex::store_name` (`main.rs`), the by-name key is the final path
segment with its extension RETAINED, so `photo.jpg` and `photo.png`
keep distinct keys; the extension-stripped stem key appears only in the
orphan `file_tree` module's `store_name`, which is not part of the
compiled program. -/
theorem C2_store_name_key :
    (∀ (idx : FileIndex) (n : String) (f : File) (s : String),
        rustFileName n = some s →
        idx.store_name n f
          = some { idx with byName := storeBucket idx.byName s f })
    ∧ (∀ (idx : FileIndex) (n : String) (f : File) (s : String),
        rustFileStem n = some s →
        file_tree.store_name idx n f
          = some { idx with byName := storeBucket idx.byName s f })
    ∧ rustFileName "/r/photo.jpg" = some "photo.jpg"
    ∧ rustFileName "/r/photo.png" = some "photo.png"
    ∧ rustFileStem "/r/photo.jpg" = some "photo"
    ∧ rustFileStem "/r/photo.png" = some "photo" := by
  refine ⟨?_, ?_, by decide, by decide, by decide, by decide⟩
  · intro idx n f s h
    simp [FileIndex.store_name, h]
  · intro idx n f s h
    simp [file_tree.store_name, h]

/-- C2 witness: the key characterizations evaluated on `photo.jpg`. -/
theorem C2_store_name_key_witness :
    FileIndex.new.store_name "/r/photo.jpg" ⟨"/r/photo.jpg"⟩
      = some { FileIndex.new with
          byName := storeBucket FileIndex.new.byName "photo.jpg" ⟨"/r/photo.jpg"⟩ }
    ∧ file_tree.store_name FileIndex.new "/r/photo.jpg" ⟨"/r/photo.jpg"⟩
      = some { FileIndex.new with
          byName := storeBucket FileIndex.new.byName "photo" ⟨"/r/photo.jpg"⟩ } :=
  ⟨C2_store_name_key.1 FileIndex.new "/r/photo.jpg" ⟨"/r/photo.jpg"⟩
      "photo.jpg" (by decide),
   C2_store_name_key.2.1 FileIndex.new "/r/photo.jpg" ⟨"/r/photo.jpg"⟩
      "photo" (by decide)⟩

/-! ## Claim C3 -/

/-- C3: REFUTED on the code (code bug).  `organize` does evaluate to 1
when the root cannot be walked, but `fn main` discards `organize`'s
return value (it neither propagates it nor calls `process::exit`), so
the process exits 0 even then: on a filesystem where no directory can
be listed, the walk fails, `organize` returns 1 — and the process exit
status is still 0, contradicting the specified exit-code mapping. -/
theorem C3_exit_code_ignored :
    organize fsEmpty zeroHash 1 "/nope" = .walkErr
    ∧ organizeExitCode (organize fsEmpty zeroHash 1 "/nope") = some 1
    ∧ mainExit fsEmpty zeroHash 1 "/nope" = some 0 :=
  ⟨rfl, rfl, rfl⟩

/-! ## Claim C4 -/

/-- C4 counterexample: on a root holding the unreadable `bad.txt`
followed by readable identical twins `g1.txt` and `g2.txt`, the claim
predicts that `bad.txt` is skipped and the twins are still reported.
Instead `try_digest(..).unwrap()` panics and the whole run aborts with
no report. -/
theorem C4_digest_failure_panics :
    organize digestFS digestHash 2 "/r" = .panicked :=
  rfl

/-- C4 (amended): a digest failure is fatal, not recoverable —
`create_hash_index` aborts (the digest `unwrap` panics) exactly when
some visited file's content cannot be read; no file is skipped and
indexing of the remaining files does not continue. -/
theorem C4_hash_index_aborts_iff (fs : FS) (hash : List Nat → String)
    (t : FileTree) (idx : FileIndex) :
    create_hash_index fs hash t idx = none ↔
      ∃ f ∈ visitFiles t, fs.content f.name = none :=
  hashFold_none_iff fs hash (visitFiles t) idx

/-! ## Claim C5 -/

/-- C5 counterexample: an entry that is listed successfully but then
cannot be stat'ed is NOT dropped: `fs::metadata(&path).unwrap()` panics
and the walk aborts instead of continuing with the remaining
entries. -/
theorem C5_stat_failure_panics :
    walk_dir statFS should_skip 1 "/r" true = .panic :=
  rfl

/-- C5 (amended): the error asymmetry of `walk_dir` is: (1) a failed
listing of the walked directory is a fatal error; (2) errored items of
the listing iterator are dropped by `filter_map(ok)` and enumeration
continues — the walk depends on each listing only through its
successfully yielded entries; (3) a listed entry that passes the filter
but whose `fs::metadata` stat fails makes the walk PANIC rather than
being dropped; (4) a listing failure inside a traversed subdirectory
propagates out as a fatal error. -/
theorem C5_walk_error_policy :
    (∀ (fs : FS) (filt : String → Bool) (fuel : Nat) (dir : String)
        (dirOk : Bool), fs.readDir dir = none →
        walk_dir fs filt (fuel + 1) dir dirOk = .err)
    ∧ (∀ (fs : FS) (gg : String → Option (List (Option DirEntry)))
          (filt : String → Bool) (fuel : Nat) (dir : String) (dirOk : Bool),
        (∀ p, Option.map (List.filterMap id) (fs.readDir p)
            = Option.map (List.filterMap id) (gg p)) →
        walk_dir fs filt fuel dir dirOk
          = walk_dir { fs with readDir := gg } filt fuel dir dirOk)
    ∧ (∀ (fs : FS) (filt : String → Bool)
          (r : String → Bool → WRes FileTree) (dir : String) (dirOk : Bool)
          (e : DirEntry) (rest : List DirEntry),
        filt (entryName dir e) = true →
        fs.metadataOk (dir ++ "/" ++ e.raw) = false →
        walkEntriesCore fs filt r dir dirOk (e :: rest) = .panic)
    ∧ (∀ (fs : FS) (filt : String → Bool)
          (r : String → Bool → WRes FileTree) (dir : String) (dirOk : Bool)
          (e : DirEntry) (rest : List DirEntry),
        filt (entryName dir e) = true →
        fs.metadataOk (dir ++ "/" ++ e.raw) = true →
        fs.isDir (dir ++ "/" ++ e.raw) = true →
        r (dir ++ "/" ++ e.raw) (dirOk && e.utf8) = .err →
        walkEntriesCore fs filt r dir dirOk (e :: rest) = .err) := by
  refine ⟨?_, ?_, ?_, ?_⟩
  · intro fs filt fuel dir dirOk h
    simp [walk_dir, h]
  · intro fs gg filt fuel dir dirOk hg
    exact walk_dir_filterMap_congr fs gg hg filt fuel dir dirOk
  · intro fs filt r dir dirOk e rest h1 h2
    simp [walkEntriesCore, h1, h2]
  · intro fs filt r dir dirOk e rest h1 h2 h3 h4
    simp [walkEntriesCore, h1, h2, h3, h4]

/-- C5 witness: the fatal-listing and stat-panic conjuncts evaluated on
concrete filesystems. -/
theorem C5_walk_error_policy_witness :
    walk_dir fsEmpty should_skip 1 "/nope" true = .err
    ∧ walkEntriesCore statFS should_skip (walk_dir statFS should_skip 0)
        "/r" true [⟨"gone.txt", true⟩] = .panic :=
  ⟨C5_walk_error_policy.1 fsEmpty should_skip 0 "/nope" true rfl,
   C5_walk_error_policy.2.2.1 statFS should_skip
     (walk_dir statFS should_skip 0) "/r" true ⟨"gone.txt", true⟩ []
     (by decide) rfl⟩

/-! ## Claim C6 -/

/-- C6: CONFIRMED.  An entry whose computed name begins with `.` is
rejected by the default filter BEFORE any recursion or node
construction: the walk of the remaining entries is unchanged, so the
hidden entry and (for a directory) its entire subtree are absent from
the resulting tree and hence from both indexes built from it. -/
theorem C6_hidden_entry_skipped (fs : FS) (fuel : Nat) (dir : String)
    (dirOk : Bool) (e : DirEntry) (rest : List DirEntry)
    (h : startsWithDot (entryName dir e) = true) :
    walk_entries fs should_skip fuel dir dirOk (e :: rest)
      = walk_entries fs should_skip fuel dir dirOk rest := by
  apply walkEntriesCore_skip
  simp [should_skip, h]

/-- C6 witness: a `.git` entry is skipped. -/
theorem C6_hidden_entry_skipped_witness :
    walk_entries fsEmpty should_skip 0 "/r" true [⟨".git", true⟩]
      = walk_entries fsEmpty should_skip 0 "/r" true [] :=
  C6_hidden_entry_skipped fsEmpty 0 "/r" true ⟨".git", true⟩ [] (by decide)

/-! ## Claim C7 -/

/-- C7: CONFIRMED.  When the hash index is fully built (no digest
panic) and the digest separates the distinct contents occurring among
the scanned files, the by-content bucket holding a scanned file `f`
consists exactly of the scanned files whose content equals `f`'s (in
traversal order, regardless of name or location), and `f` lies in no
other bucket. -/
theorem C7_content_buckets_exact (fs : FS) (hash : List Nat → String)
    (t : FileTree) (idx : FileIndex) (f : File) (k : String)
    (hok : create_hash_index fs hash t FileIndex.new = some idx)
    (hcoll : ∀ g1 ∈ visitFiles t, ∀ g2 ∈ visitFiles t,
        fs.content g1.name ≠ fs.content g2.name →
        tryDigest fs hash g1.name ≠ tryDigest fs hash g2.name)
    (hf : f ∈ visitFiles t)
    (hk : tryDigest fs hash f.name = some k) :
    bucketGet idx.byHash k
      = (visitFiles t).filter
          (fun g => decide (fs.content g.name = fs.content f.name))
    ∧ ∀ k2 : String, f ∈ bucketGet idx.byHash k2 → k2 = k := by
  have hchar := hashFold_some_bucket fs hash (visitFiles t) FileIndex.new idx hok
  constructor
  · rw [hchar k, show bucketGet FileIndex.new.byHash k = [] from rfl,
      List.nil_append]
    apply List.filter_congr
    intro g hg
    by_cases hcg : fs.content g.name = fs.content f.name
    · have hdg : tryDigest fs hash g.name = tryDigest fs hash f.name := by
        simp [tryDigest, hcg]
      simp [hdg, hk, hcg]
    · have hne : tryDigest fs hash g.name ≠ tryDigest fs hash f.name :=
        hcoll g hg f hf hcg
      rw [hk] at hne
      simp [hne, hcg]
  · intro k2 hmem
    rw [hchar k2, show bucketGet FileIndex.new.byHash k2 = [] from rfl,
      List.nil_append] at hmem
    have hp := List.of_mem_filter hmem
    have h2 : tryDigest fs hash f.name = some k2 := of_decide_eq_true hp
    rw [hk] at h2
    exact (Option.some.inj h2).symm

/-- C7 witness: on the three-file tree with twin contents, the `dA`
bucket is exactly the two content-equal files. -/
theorem C7_content_buckets_exact_witness :
    bucketGet (FileIndex.mk
        [("dA", [⟨"/r/a.txt"⟩, ⟨"/r/b/a.txt"⟩]), ("dB", [⟨"/r/c.txt"⟩])]
        []).byHash "dA"
      = (visitFiles treeW).filter
          (fun g => decide
            (treeWFS.content g.name = treeWFS.content (File.mk "/r/a.txt").name)) :=
  (C7_content_buckets_exact treeWFS treeWHash treeW
      ⟨[("dA", [⟨"/r/a.txt"⟩, ⟨"/r/b/a.txt"⟩]), ("dB", [⟨"/r/c.txt"⟩])], []⟩
      ⟨"/r/a.txt"⟩ "dA" rfl (by decide) (by decide) rfl).1

/-! ## Claim C8 -/

/-- C8: CONFIRMED.  On a successful run the emitted report is exactly
the content groups (from the hash index) followed by the name groups
(from the name index): every emitted group has at least two members (no
singleton buckets), every content group precedes every name group with
the two kinds never interleaved or merged, and every bucket of either
index with at least two members is emitted with its kind. -/
theorem C8_report_structure (fs : FS) (hash : List Nat → String) (fuel : Nat)
    (dir : String) (report : List ReportGroup)
    (h : organize fs hash fuel dir = .ok report) :
    ∃ tree idx1 idx2,
      walk_dir fs should_skip fuel dir true = .ok tree
      ∧ create_hash_index fs hash tree FileIndex.new = some idx1
      ∧ create_name_index tree idx1 = some idx2
      ∧ report = groupsOf .content idx1.byHash ++ groupsOf .name idx2.byName
      ∧ (∀ g ∈ report, 2 ≤ g.members.length)
      ∧ (∃ cs ns, report = cs ++ ns
          ∧ (∀ g ∈ cs, g.kind = .content) ∧ (∀ g ∈ ns, g.kind = .name))
      ∧ (∀ kv ∈ idx1.byHash, 2 ≤ kv.2.length →
          (⟨.content, kv.2⟩ : ReportGroup) ∈ report)
      ∧ (∀ kv ∈ idx2.byName, 2 ≤ kv.2.length →
          (⟨.name, kv.2⟩ : ReportGroup) ∈ report) := by
  cases hw : walk_dir fs should_skip fuel dir true with
  | err => simp [organize, hw] at h
  | panic => simp [organize, hw] at h
  | fuelOut => simp [organize, hw] at h
  | ok tree =>
    cases hh : create_hash_index fs hash tree FileIndex.new with
    | none => simp [organize, hw, hh] at h
    | some idx1 =>
      cases hn : create_name_index tree idx1 with
      | none => simp [organize, hw, hh, hn] at h
      | some idx2 =>
        have hrep : report
            = groupsOf .content idx1.byHash ++ groupsOf .name idx2.byName := by
          simp only [organize, hw, hh, hn] at h
          exact (OrgResult.ok.inj h).symm
        refine ⟨tree, idx1, idx2, rfl, hh, hn, hrep, ?_, ?_, ?_, ?_⟩
        · intro g hg
          rw [hrep] at hg
          rcases List.mem_append.mp hg with hg | hg
          · exact groupsOf_len _ _ g hg
          · exact groupsOf_len _ _ g hg
        · exact ⟨groupsOf .content idx1.byHash, groupsOf .name idx2.byName,
            hrep, groupsOf_kind _ _, groupsOf_kind _ _⟩
        · intro kv hkv hlen
          rw [hrep]
          exact List.mem_append.mpr (Or.inl (groupsOf_complete _ _ kv hkv hlen))
        · intro kv hkv hlen
          rw [hrep]
          exact List.mem_append.mpr (Or.inr (groupsOf_complete _ _ kv hkv hlen))

/-- C8 witness: the report structure evaluated on a run over twin files
`x.txt` and `y.txt` with identical contents. -/
theorem C8_report_structure_witness :
    ∃ tree idx1 idx2,
      walk_dir twinFS should_skip 2 "/r" true = .ok tree
      ∧ create_hash_index twinFS twinHash tree FileIndex.new = some idx1
      ∧ create_name_index tree idx1 = some idx2
      ∧ [(⟨.content, [⟨"/r/x.txt"⟩, ⟨"/r/y.txt"⟩]⟩ : ReportGroup)]
          = groupsOf .content idx1.byHash ++ groupsOf .name idx2.byName
      ∧ (∀ g ∈ [(⟨.content, [⟨"/r/x.txt"⟩, ⟨"/r/y.txt"⟩]⟩ : ReportGroup)],
          2 ≤ g.members.length)
      ∧ (∃ cs ns,
          [(⟨.content, [⟨"/r/x.txt"⟩, ⟨"/r/y.txt"⟩]⟩ : ReportGroup)] = cs ++ ns
          ∧ (∀ g ∈ cs, g.kind = .content) ∧ (∀ g ∈ ns, g.kind = .name))
      ∧ (∀ kv ∈ idx1.byHash, 2 ≤ kv.2.length →
          (⟨.content, kv.2⟩ : ReportGroup)
            ∈ [(⟨.content, [⟨"/r/x.txt"⟩, ⟨"/r/y.txt"⟩]⟩ : ReportGroup)])
      ∧ (∀ kv ∈ idx2.byName, 2 ≤ kv.2.length →
          (⟨.name, kv.2⟩ : ReportGroup)
            ∈ [(⟨.content, [⟨"/r/x.txt"⟩, ⟨"/r/y.txt"⟩]⟩ : ReportGroup)]) :=
  C8_report_structure twinFS twinHash 2 "/r"
    [⟨.content, [⟨"/r/x.txt"⟩, ⟨"/r/y.txt"⟩]⟩] rfl

/-! ## Claim C9 -/

/-- C9: CONFIRMED.  An entry whose final name component is missing or
not valid UTF-8 gets the substituted name `.` in `walk_dir`
(`unwrap_or` twice), and the default hidden-entry filter then rejects
`.`, so the entry is silently omitted from the tree and hence from both
indexes. -/
theorem C9_invalid_name_becomes_dot (fs : FS) (fuel : Nat)
    (dir : String) (dirOk : Bool) (e : DirEntry) (rest : List DirEntry)
    (h : e.utf8 = false ∨ rustFileName (dir ++ "/" ++ e.raw) = none) :
    entryName dir e = "."
    ∧ walk_entries fs should_skip fuel dir dirOk (e :: rest)
        = walk_entries fs should_skip fuel dir dirOk rest := by
  have hname : entryName dir e = "." := by
    cases h with
    | inl h1 => simp [entryName, h1]
    | inr h2 =>
      cases hu : e.utf8 with
      | false => simp [entryName, hu]
      | true => simp [entryName, hu, h2]
  refine ⟨hname, ?_⟩
  apply walkEntriesCore_skip
  rw [hname]
  rfl

/-- C9 witness: an entry with a non-UTF-8 name is renamed `.` and
skipped. -/
theorem C9_invalid_name_becomes_dot_witness :
    entryName "/r" ⟨"data.bin", false⟩ = "."
    ∧ walk_entries fsEmpty should_skip 0 "/r" true [⟨"data.bin", false⟩]
        = walk_entries fsEmpty should_skip 0 "/r" true [] :=
  C9_invalid_name_becomes_dot fsEmpty 0 "/r" true ⟨"data.bin", false⟩ []
    (Or.inl rfl)

/-! ## Claim C10 -/

/-- C10: CONFIRMED.  `store_name` panics exactly when the stored path
has no final file-name component (such as a path ending in `..`), and
for every path that does have one it succeeds, appending the file to
the bucket keyed by that component. -/
theorem C10_store_name_panics_without_component (idx : FileIndex)
    (n : String) (f : File) :
    (rustFileName n = none → idx.store_name n f = none)
    ∧ (∀ s : String, rustFileName n = some s →
        idx.store_name n f = some ⟨idx.byHash, storeBucket idx.byName s f⟩
        ∧ bucketGet (storeBucket idx.byName s f) s
            = bucketGet idx.byName s ++ [f]) := by
  constructor
  · intro h
    simp [FileIndex.store_name, h]
  · intro s h
    refine ⟨by simp [FileIndex.store_name, h], ?_⟩
    rw [bucketGet_storeBucket]
    simp

/-- C10 witness: `a/..` panics, `photo.jpg` is appended under its own
name. -/
theorem C10_store_name_panics_witness :
    FileIndex.new.store_name "a/.." ⟨"a/.."⟩ = none
    ∧ (FileIndex.new.store_name "photo.jpg" ⟨"photo.jpg"⟩
        = some ⟨FileIndex.new.byHash,
            storeBucket FileIndex.new.byName "photo.jpg" ⟨"photo.jpg"⟩⟩
       ∧ bucketGet (storeBucket FileIndex.new.byName "photo.jpg" ⟨"photo.jpg"⟩)
            "photo.jpg"
          = bucketGet FileIndex.new.byName "photo.jpg" ++ [⟨"photo.jpg"⟩]) :=
  ⟨(C10_store_name_panics_without_component FileIndex.new "a/.." ⟨"a/.."⟩).1
      (by decide),
   (C10_store_name_panics_without_component FileIndex.new "photo.jpg"
      ⟨"photo.jpg"⟩).2 "photo.jpg" (by decide)⟩

end FileOrganizer
